import Mathlib

/-!
Shallow embedding of the CSF-Downloader depot download engine
(`reboot_downloader.py` and the trimmed `steamctl` modules) and proofs
about its specified properties.

Python strings are modelled as `List Char`, raw bytes as `List Nat`
(each element a byte value), Python dicts as association lists with
overwrite-on-insert semantics, and the external collaborators (zlib,
UTF-8 codec, the SHA-1 hash, the chunk-fetch transport) as explicit
function parameters.
-/

/-! ## Python dict model (insertion preserves position, overwrite on repeat) -/

def dictInsert {α β : Type} [DecidableEq α] (k : α) (v : β) :
    List (α × β) → List (α × β)
  | [] => [(k, v)]
  | (k', v') :: t => if k' = k then (k, v) :: t else (k', v') :: dictInsert k v t

def dictGet {α β : Type} [DecidableEq α] (k : α) (d : List (α × β)) : Option β :=
  (d.find? (fun e => e.1 = k)).map (fun e => e.2)

theorem dictGet_dictInsert_same {α β : Type} [DecidableEq α]
    (k : α) (v : β) (d : List (α × β)) :
    dictGet k (dictInsert k v d) = some v := by
  induction d with
  | nil => simp [dictInsert, dictGet]
  | cons e t ih =>
      by_cases h : e.1 = k
      · simp [dictInsert, dictGet, h]
      · simp only [dictInsert, dictGet] at *
        simp [h, ih]

theorem dictGet_dictInsert_other {α β : Type} [DecidableEq α]
    (k k' : α) (v : β) (d : List (α × β)) (hne : k' ≠ k) :
    dictGet k (dictInsert k' v d) = dictGet k d := by
  induction d with
  | nil => simp [dictInsert, dictGet, hne]
  | cons e t ih =>
      obtain ⟨a, b⟩ := e
      by_cases h : a = k'
      · subst h
        simp [dictInsert, dictGet, hne]
      · by_cases h2 : a = k
        · subst h2
          simp [dictInsert, dictGet, h]
        · simp only [dictInsert, dictGet] at *
          simp [h, h2, ih]

/-! ## ContainerDecoder: XOR key derivation (reboot_downloader.py lines 218-220)

`xorkey, size, xorkeyverify = struct.unpack('III', header)`
`xorkey ^= 0xFFFEA4C8`
`xorkey &= 0xFF`
-/

def deriveXorKey (xorkey_raw : Nat) : Nat :=
  (xorkey_raw ^^^ 0xFFFEA4C8) &&& 0xFF

/-! ## Path sanitization (steamctl/utils/storage.py lines 22-25)

`path = Path(path.replace('\\', '/')).as_posix().lstrip('/')`

`pathlib.PurePosixPath` normalization drops empty components and `'.'`
components but keeps `'..'` components; `as_posix` re-joins with `/`
(a bare root collapses to `'/'`, an empty path to `'.'`), and
`lstrip('/')` then removes any leading slashes.  The model operates on
the character list of the path.
-/

def pyReplaceBackslash (s : List Char) : List Char :=
  s.map (fun c => if c = '\\' then '/' else c)

def splitSlashAux : List Char → List Char → List (List Char)
  | [], acc => [acc.reverse]
  | c :: t, acc =>
      if c = '/' then acc.reverse :: splitSlashAux t []
      else splitSlashAux t (c :: acc)

def splitSlash (s : List Char) : List (List Char) := splitSlashAux s []

def joinSlash : List (List Char) → List Char
  | [] => []
  | [p] => p
  | p :: t => p ++ '/' :: joinSlash t

def sanitizerelpath (s : List Char) : List Char :=
  let r := pyReplaceBackslash s
  let parts := (splitSlash r).filter (fun p => ¬(p = [] ∨ p = ['.']))
  match parts with
  | [] => if r.head? = some '/' then [] else ['.']
  | _ => joinSlash parts

/-- Resolving the (already sanitized, hence relative) path under the
destination root stays inside the root exactly when no `..` component
ever climbs above the starting directory. -/
def staysInsideAux : List (List Char) → Nat → Bool
  | [], _ => true
  | c :: t, d =>
      if c = ['.', '.'] then
        match d with
        | 0 => false
        | Nat.succ d' => staysInsideAux t d'
      else staysInsideAux t (d + 1)

def staysInside (rel : List Char) : Bool :=
  staysInsideAux ((splitSlash rel).filter (fun p => p ≠ [])) 0

/-! ## ManifestFileIndex (depot/gcmds.py lines 50-70)

A manifest is modelled by its ordered list of file entries
`(filename, file-mapping payload)`.  The external steam library's
`manifest.iter_files(path)` yields the entries whose filename matches
`path`; for a concrete path (no wildcard characters) that is filename
equality, so `next(manifest.iter_files(path))` is the first entry of the
manifest named `path`.
-/

abbrev Manifest := List (List Char × Nat)

abbrev FileRef := Manifest × Nat

def findFileEntry (m : Manifest) (path : List Char) : Option Nat :=
  (m.find? (fun e => e.1 = path)).map (fun e => e.2)

structure ManifestFileIndex where
  manifests : List Manifest
  path_cache : List (List Char × Option FileRef)
deriving DecidableEq

def mkIndex (ms : List Manifest) : ManifestFileIndex := ⟨ms, []⟩

/-- `ManifestFileIndex._locate_file_mapping` (gcmds.py lines 55-70).
Returns `(result, updated index, number of manifests scanned)`.  The
Python code tests the cached entry with `if ref:` -- a cached `None`
(negative result) is falsy and indistinguishable from a missing cache
entry, so it rescans; the scan loop has no `break`, every manifest is
visited and each hit overwrites `ref`. -/
def locateFileMapping (idx : ManifestFileIndex) (path : List Char) :
    Option FileRef × ManifestFileIndex × Nat :=
  let cached : Option FileRef := (dictGet path idx.path_cache).getD none
  match cached with
  | some r => (some r, idx, 0)
  | none =>
      let res := idx.manifests.foldl
        (fun acc m =>
          match findFileEntry m path with
          | some fm => some (m, fm)
          | none => acc) none
      (res, ⟨idx.manifests, dictInsert path res idx.path_cache⟩,
       idx.manifests.length)

/-- Written from the spec's words (claim C2): the pair from the FIRST
manifest, in the supplied order, that contains the path. -/
def firstProviderSpec (ms : List Manifest) (path : List Char) : Option FileRef :=
  match ms with
  | [] => none
  | m :: t =>
      match findFileEntry m path with
      | some fm => some (m, fm)
      | none => firstProviderSpec t path

/-- The pair from the LAST manifest, in the supplied order, that contains
the path (first entry within that manifest). -/
def lastProvider (ms : List Manifest) (path : List Char) : Option FileRef :=
  match ms with
  | [] => none
  | m :: t =>
      match lastProvider t path with
      | some r => some r
      | none => (findFileEntry m path).map (fun fm => (m, fm))

/-! ## ChunkVerifyingDownloader (clients.py `CTLDepotFile.download_to`, lines 51-101)

The target file is a byte list; `sha1_hash` and
`cdn_client.get_chunk` are external collaborators, passed as explicit
function parameters `hash` / `fetch`.
-/

structure ChunkData where
  sha : Nat
  offset : Nat
  cb_original : Nat
deriving DecidableEq

def readAt (file : List Nat) (pos n : Nat) : List Nat := (file.drop pos).take n

def writeAt (file : List Nat) (pos : Nat) (data : List Nat) : List Nat :=
  file.take pos ++ data ++ file.drop (pos + data.length)

/-- Pre-allocation (lines 72-76): `fp.truncate(self.size)` when the current
length differs -- shrinks or zero-extends to `size`. -/
def allocTo (file : List Nat) (size : Nat) : List Nat :=
  if file.length = size then file
  else file.take size ++ List.replicate (size - file.length) 0

structure DLState where
  file : List Nat
  pos : Nat
  fetches : Nat
  progress : Nat
deriving DecidableEq

/-- One iteration of the chunk loop (lines 79-101).  If verifying, read
`cb_original` bytes at the cursor and skip the fetch when the hash
matches (counting the bytes toward progress); on mismatch seek to the
chunk's offset, fetch and write. -/
def processChunk (ha : List Nat → Nat) (fetch : Nat → List Nat) (verify : Bool)
    (s : DLState) (c : ChunkData) : DLState :=
  if verify then
    let cur := readAt s.file s.pos c.cb_original
    if ha cur = c.sha then
      { s with pos := s.pos + cur.length, progress := s.progress + c.cb_original }
    else
      let data := fetch c.sha
      { file := writeAt s.file c.offset data, pos := c.offset + data.length,
        fetches := s.fetches + 1, progress := s.progress + c.cb_original }
  else
    let data := fetch c.sha
    { file := writeAt s.file s.pos data, pos := s.pos + data.length,
      fetches := s.fetches + 1, progress := s.progress + c.cb_original }

/-- `download_to` body after path handling: `verify` is forced off when the
target does not exist (line 65-66), the file is opened `'r+b'` when
verifying else `'wb'` (truncating), pre-allocated to `size`, and the
chunks are walked in order from offset 0. -/
def download_to (ha : List Nat → Nat) (fetch : Nat → List Nat)
    (existsOnDisk : Bool) (verify : Bool) (size : Nat)
    (diskFile : List Nat) (chunks : List ChunkData) : DLState :=
  let v := verify && existsOnDisk
  let file0 := if v then diskFile else []
  let fileA := allocTo file0 size
  chunks.foldl (processChunk ha fetch v) ⟨fileA, 0, 0, 0⟩

/-- Chunks laid out back-to-back starting at `pos` (the data-model
invariant: offsets are the running sum of the original lengths). -/
def contiguousFrom : Nat → List ChunkData → Bool
  | _, [] => true
  | pos, c :: t => c.offset = pos && contiguousFrom (pos + c.cb_original) t

def sumLens (chunks : List ChunkData) : Nat :=
  (chunks.map (fun c => c.cb_original)).sum

/-! ## ContainerDecoder: Format-A grammar (reboot_downloader.py lines 233-245)

The two regular expressions
`addappid\(\s*(\d+)\s*(?:,\s*\d+\s*,\s*"([0-9a-f]+)"\s*)?\)` and
`setManifestid\(\s*(\d+)\s*,\s*"(\d+)"\s*(?:,\s*\d+\s*)?\)` are
deterministic for these character classes (no productive backtracking:
the optional group begins with `,` while the continuation is `)`, and
no class contains `"`, `,` or `)`), so each is embedded as a
left-to-right scanner: at each position try to match; on success emit
the groups and continue after the match (non-overlapping, as
`re.finditer`), otherwise advance one character.
-/

def isPyDigit (c : Char) : Bool := '0' ≤ c && c ≤ '9'

def isHexLower (c : Char) : Bool := isPyDigit c || ('a' ≤ c && c ≤ 'f')

def isPySpace (c : Char) : Bool :=
  c = ' ' || c = '\t' || c = '\n' || c = '\r' || c = '\x0b' || c = '\x0c'

def dropSpaces (s : List Char) : List Char := s.dropWhile isPySpace

/-- Greedy `X+` for a character class: fails on an empty match. -/
def takeClass1 (p : Char → Bool) (s : List Char) : Option (List Char × List Char) :=
  match s.span p with
  | (ds, rest) => if ds = [] then none else some (ds, rest)

def matchLiteral : List Char → List Char → Option (List Char)
  | [], s => some s
  | _ :: _, [] => none
  | c :: t, x :: xs => if x = c then matchLiteral t xs else none

/-- Attempt the `addappid` pattern at the head of `s`; on success return
`((depot-id digits, optional key digits), rest-after-match)`. -/
def matchAddappidAt (s : List Char) :
    Option ((List Char × Option (List Char)) × List Char) :=
  match matchLiteral "addappid(".toList s with
  | none => none
  | some s1 =>
      match takeClass1 isPyDigit (dropSpaces s1) with
      | none => none
      | some (did, s3) =>
          match dropSpaces s3 with
          | ')' :: rest => some ((did, none), rest)
          | ',' :: s5 =>
              match takeClass1 isPyDigit (dropSpaces s5) with
              | none => none
              | some (_, s7) =>
                  match dropSpaces s7 with
                  | ',' :: s9 =>
                      match dropSpaces s9 with
                      | '"' :: s11 =>
                          match takeClass1 isHexLower s11 with
                          | none => none
                          | some (key, s12) =>
                              match s12 with
                              | '"' :: s13 =>
                                  match dropSpaces s13 with
                                  | ')' :: rest => some ((did, some key), rest)
                                  | _ => none
                              | _ => none
                      | _ => none
                  | _ => none
          | _ => none

/-- Attempt the `setManifestid` pattern at the head of `s`; on success
return `((depot-id digits, manifest-id digits), rest-after-match)`. -/
def matchSetManifestidAt (s : List Char) :
    Option ((List Char × List Char) × List Char) :=
  match matchLiteral "setManifestid(".toList s with
  | none => none
  | some s1 =>
      match takeClass1 isPyDigit (dropSpaces s1) with
      | none => none
      | some (did, s3) =>
          match dropSpaces s3 with
          | ',' :: s5 =>
              match dropSpaces s5 with
              | '"' :: s7 =>
                  match takeClass1 isPyDigit s7 with
                  | none => none
                  | some (mid, s8) =>
                      match s8 with
                      | '"' :: s9 =>
                          match dropSpaces s9 with
                          | ')' :: rest => some ((did, mid), rest)
                          | ',' :: s11 =>
                              match takeClass1 isPyDigit (dropSpaces s11) with
                              | none => none
                              | some (_, s13) =>
                                  match dropSpaces s13 with
                                  | ')' :: rest => some ((did, mid), rest)
                                  | _ => none
                          | _ => none
                      | _ => none
              | _ => none
          | _ => none

def scanAddappid : Nat → List Char → List (List Char × Option (List Char))
  | 0, _ => []
  | Nat.succ fuel, s =>
      match matchAddappidAt s with
      | some (m, rest) => m :: scanAddappid fuel rest
      | none =>
          match s with
          | [] => []
          | _ :: t => scanAddappid fuel t

def scanSetManifestid : Nat → List Char → List (List Char × List Char)
  | 0, _ => []
  | Nat.succ fuel, s =>
      match matchSetManifestidAt s with
      | some (m, rest) => m :: scanSetManifestid fuel rest
      | none =>
          match s with
          | [] => []
          | _ :: t => scanSetManifestid fuel t

/-- All `addappid` matches of the content, in order (`re.finditer`). -/
def findAddappid (content : List Char) : List (List Char × Option (List Char)) :=
  scanAddappid content.length content

/-- All `setManifestid` matches of the content, in order. -/
def findSetManifestid (content : List Char) : List (List Char × List Char) :=
  scanSetManifestid content.length content

/-- The `depot_keys` dict built by the loop at lines 236-240: matches
without a key group leave the dict untouched, matches with a key
overwrite the depot's entry. -/
def buildDepotKeys (ms : List (List Char × Option (List Char))) :
    List (List Char × List Char) :=
  ms.foldl
    (fun d m =>
      match m.2 with
      | some k => dictInsert m.1 k d
      | none => d) []

/-- Parsing a Format-A text: the depot-id → key dict and the ordered
(depot-id, manifest-id) pairs. -/
def parseFormatA (content : List Char) :
    List (List Char × List Char) × List (List Char × List Char) :=
  (buildDepotKeys (findAddappid content), findSetManifestid content)

/-- The key of the last `addappid` match for depot `d` that actually
carried a key group; `none` when no match for `d` carried one. -/
def lastCarriedKey : List (List Char × Option (List Char)) → List Char →
    Option (List Char)
  | [], _ => none
  | m :: t, d =>
      match lastCarriedKey t d with
      | some k => some k
      | none => if m.1 = d then m.2 else none

/-! ## ContainerDecoder: Format B (reboot_downloader.py lines 216-227) -/

def u32le (b0 b1 b2 b3 : Nat) : Nat :=
  b0 + 256 * b1 + 65536 * b2 + 16777216 * b3

def leBytes4 (n : Nat) : List Nat :=
  [n % 256, n / 256 % 256, n / 65536 % 256, n / 16777216 % 256]

def xorBytes (k : Nat) (data : List Nat) : List Nat :=
  data.map (fun b => b ^^^ k)

/-- The `.st` branch of `get_data_local` (lines 216-227): unpack the
three little-endian u32s of the 12-byte header, derive the single-byte
key, XOR the `size`-byte payload, inflate it (`decomp` models
`zlib.decompress`), drop 512 bytes, decode the rest to text (`dec`
models `bytes.decode('utf-8')`) and parse it as Format A.  A container
shorter than 12 bytes makes `struct.unpack` fail: `none`. -/
def decodeFormatB (decomp : List Nat → List Nat) (dec : List Nat → List Char)
    (content : List Nat) :
    Option (List (List Char × List Char) × List (List Char × List Char)) :=
  match content with
  | a0 :: a1 :: a2 :: a3 :: b0 :: b1 :: b2 :: b3 :: _ :: _ :: _ :: _ :: body =>
      let xorkey_raw := u32le a0 a1 a2 a3
      let size := u32le b0 b1 b2 b3
      let key := deriveXorKey xorkey_raw
      let data := body.take size
      let decompressed := decomp (xorBytes key data)
      let text := dec (decompressed.drop 512)
      some (parseFormatA text)
  | _ => none

/-- A Format-B container correctly built around a Format-A `text`:
header of three little-endian u32s (raw XOR key, payload size, verify
word), then the deflated 512-byte-padded text with every byte XORed
with the derived key (`comp` models `zlib.compress`, `enc` models
`str.encode('utf-8')`). -/
def buildFormatB (comp : List Nat → List Nat) (enc : List Char → List Nat)
    (xorkey_raw verify : Nat) (pad : List Nat) (text : List Char) : List Nat :=
  let payload := comp (pad ++ enc text)
  leBytes4 xorkey_raw ++ leBytes4 payload.length ++ leBytes4 verify ++
    xorBytes (deriveXorKey xorkey_raw) payload

/-! ## DownloadScheduler cancellation (depot/gcmds.py lines 148-305)

`should_cancel` is a one-element list written by `cancel_download` from
the monitor greenlet; gevent greenlets are cooperative, so a
check-then-spawn sequence with no yield point in between is atomic.
The flag is modelled as a function of a step counter: each check of
`should_cancel[0]` samples the flag at the current time and advances
time by one; a spawn happens at the sample time of its check.  A depot
file entry is modelled by its `is_file` flag (non-files are skipped
without spawning, lines 262-263).
-/

/-- The inner `for depotfile in manifest` loop (lines 258-271): check the
flag, break if set, skip non-files, spawn files.  Returns the spawn
times and the time after the loop. -/
def runFilesLoop (flag : Nat → Bool) : Nat → List Bool → List Nat × Nat
  | t, [] => ([], t)
  | t, isfile :: rest =>
      if flag t then ([], t + 1)
      else
        ((if isfile then [t] else []) ++ (runFilesLoop flag (t + 1) rest).1,
         (runFilesLoop flag (t + 1) rest).2)

/-- The outer `for manifest in manifests` loop (lines 254-271). -/
def runManifestsLoop (flag : Nat → Bool) : Nat → List (List Bool) → List Nat × Nat
  | t, [] => ([], t)
  | t, m :: rest =>
      if flag t then ([], t + 1)
      else
        ((runFilesLoop flag (t + 1) m).1 ++
           (runManifestsLoop flag (runFilesLoop flag (t + 1) m).2 rest).1,
         (runManifestsLoop flag (runFilesLoop flag (t + 1) m).2 rest).2)

/-- The submission phase of `cmd_depot_download` plus its final
`return 0 if not should_cancel[0] else 1` (line 305): the spawn times,
the time of the final flag read, and the exit status. -/
def cmd_depot_download (flag : Nat → Bool) (manifests : List (List Bool)) :
    List Nat × Nat × Nat :=
  ((runManifestsLoop flag 0 manifests).1,
   (runManifestsLoop flag 0 manifests).2,
   if flag (runManifestsLoop flag 0 manifests).2 then 1 else 0)

/-! ## CachingCDNClient depot-key store (clients.py lines 113-117, 155-188) -/

abbrev KeyDict := List (Nat × List Nat)

/-- The parts of the client and filesystem state that the depot-key
operations touch.  `customContent` is what loading the custom path
would yield (`none`: the path does not exist or `json.load`/`fromhex`
raises, both of which fall back to the default store);
`defaultFile` is the parsed content of `UserDataFile('depot_keys.json')`
(`read_json() or {}`). -/
structure CDNKeyState where
  custom_depot_keys_file : Option (List Char)
  customContent : Option KeyDict
  defaultFile : KeyDict
  depot_keys : KeyDict
deriving DecidableEq

/-- Python truthiness of the optional path string (`None` and `''` are
falsy). -/
def pyTruthyPath : Option (List Char) → Bool
  | none => false
  | some p => !p.isEmpty

/-- `get_cached_depot_keys` (lines 155-173). -/
def get_cached_depot_keys (s : CDNKeyState) : KeyDict :=
  if pyTruthyPath s.custom_depot_keys_file then
    match s.customContent with
    | some d => d
    | none => s.defaultFile
  else s.defaultFile

/-- Python `dict == dict`: same keys, same values (order-insensitive). -/
def dictEqB (d1 d2 : KeyDict) : Bool :=
  d1.all (fun e => dictGet e.1 d2 = some e.2) &&
    d2.all (fun e => dictGet e.1 d1 = some e.2)

/-- Python `dict.update`: insert every entry of `src` into `d`. -/
def dictUpdate (d src : KeyDict) : KeyDict :=
  src.foldl (fun acc e => dictInsert e.1 e.2 acc) d

/-- `save_cache` (lines 175-188): reload the cached keys, merge them into
the in-memory dict, and write the result to the default
`depot_keys.json` -- but only when no custom key file was provided. -/
def save_cache (s : CDNKeyState) : CDNKeyState :=
  let cached := get_cached_depot_keys s
  if dictEqB cached s.depot_keys then s
  else
    let mem := dictUpdate s.depot_keys cached
    if pyTruthyPath s.custom_depot_keys_file then
      { s with depot_keys := mem }
    else
      { s with depot_keys := mem, defaultFile := mem }

/-! ## Progress counters (gcmds.py lines 265-271 and clients.py lines 79-101)

`pbar2.update(1)` is executed in the submission loop immediately after
`tasks.spawn(...)`; a pooled `download_to` task completes at some later
point.  The two kinds of events acting on the counters: -/

inductive PoolEvent
  | submit
  | complete
deriving DecidableEq

structure PoolCounters where
  files_counter : Nat
  completed : Nat
  running : Nat
deriving DecidableEq

/-- `submit` models lines 265-271 (`tasks.spawn` directly followed by
`pbar2.update(1)`); `complete` models a pooled task finishing (which
updates no counter -- `download_to` only touches the byte progress bar). -/
def poolStep : PoolCounters → PoolEvent → PoolCounters
  | s, .submit =>
      { files_counter := s.files_counter + 1, completed := s.completed,
        running := s.running + 1 }
  | s, .complete =>
      if s.running = 0 then s
      else
        { files_counter := s.files_counter, completed := s.completed + 1,
          running := s.running - 1 }

def runPool (events : List PoolEvent) : PoolCounters :=
  events.foldl poolStep ⟨0, 0, 0⟩

/-! ## Helper lemmas -/

theorem foldl_poolStep_counter (events : List PoolEvent) (s : PoolCounters) :
    (events.foldl poolStep s).files_counter =
      s.files_counter + (events.filter (fun e => e = PoolEvent.submit)).length := by
  induction events generalizing s with
  | nil => simp
  | cons e t ih =>
      cases e with
      | submit => simp [poolStep, ih]; omega
      | complete =>
          simp only [List.foldl_cons, poolStep]
          split <;> simp [ih]

theorem foldl_poolStep_inv (events : List PoolEvent) (s : PoolCounters)
    (h : s.completed + s.running = s.files_counter) :
    (events.foldl poolStep s).completed + (events.foldl poolStep s).running =
      (events.foldl poolStep s).files_counter := by
  induction events generalizing s with
  | nil => exact h
  | cons e t ih =>
      cases e with
      | submit =>
          apply ih
          simp [poolStep]
          omega
      | complete =>
          simp only [List.foldl_cons, poolStep]
          split
          · exact ih s h
          · apply ih
            simp
            omega

/-! ## Claim theorems -/

/-- C1: the claim states that `sanitizerelpath` rejects or strips every
parent-directory traversal component so that no input path can cause a
write outside the destination root.  The code only converts backslashes
and strips leading slashes: a `..` component passes through unchanged,
and the resulting relative path `../evil`, joined under the output
directory and normalized by `os.path.abspath`, resolves to the output
directory's parent.  This theorem evaluates the code at that failing
input. -/
theorem sanitizerelpath_keeps_traversal :
    sanitizerelpath "../evil".toList = "../evil".toList ∧
    staysInside (sanitizerelpath "../evil".toList) = false ∧
    staysInside (sanitizerelpath "..\\..\\secret".toList) = false := by
  decide

/-- C5 counterexample: the claim's concrete example is wrong -- for
`xorkey_raw = 0x12345678` the derived key byte is not `0xA0`. -/
theorem deriveXorKey_example_not_A0 : deriveXorKey 0x12345678 ≠ 0xA0 := by
  decide

/-- C5 (amended): the effective single-byte XOR key equals
`(xorkey_raw XOR 0xFFFEA4C8) mod 256`, and for `xorkey_raw = 0x12345678`
the derived key byte is `0xB0` (not `0xA0` as the spec's example says). -/
theorem deriveXorKey_formula :
    (∀ raw, deriveXorKey raw = (raw ^^^ 0xFFFEA4C8) % 256) ∧
    deriveXorKey 0x12345678 = 0xB0 := by
  refine ⟨fun raw => ?_, by decide⟩
  have h := Nat.and_pow_two_sub_one_eq_mod (raw ^^^ 0xFFFEA4C8) 8
  simpa [deriveXorKey] using h

/-- C9 counterexample: after the scheduler submits one file task
(`tasks.spawn` immediately followed by `pbar2.update(1)`, gcmds.py lines
265-271) and before that task completes, the files counter reads 1 while
zero file reconstructions have completed -- the claimed invariant
"files counter = completed reconstructions at every point" fails. -/
theorem files_counter_ahead_of_completion :
    (runPool [PoolEvent.submit]).files_counter = 1 ∧
    (runPool [PoolEvent.submit]).completed = 0 ∧
    (runPool [PoolEvent.submit]).files_counter ≠
      (runPool [PoolEvent.submit]).completed := by
  decide

/-- C9 (amended): the files counter equals the number of file tasks
SUBMITTED to the worker pool (it is incremented at submission, not at
completion), and the number of completed reconstructions never exceeds
it. -/
theorem files_counter_counts_submissions (events : List PoolEvent) :
    (runPool events).files_counter =
      (events.filter (fun e => e = PoolEvent.submit)).length ∧
    (runPool events).completed ≤ (runPool events).files_counter := by
  have h1 := foldl_poolStep_counter events ⟨0, 0, 0⟩
  have h2 := foldl_poolStep_inv events ⟨0, 0, 0⟩ rfl
  unfold runPool
  constructor
  · simpa using h1
  · omega

/-- C8: when a custom depot-key file is supplied (a truthy path),
`save_cache` writes nothing: the default on-disk key store and the
custom file are both left unchanged. -/
theorem save_cache_custom_isolated (s : CDNKeyState)
    (h : pyTruthyPath s.custom_depot_keys_file = true) :
    (save_cache s).defaultFile = s.defaultFile ∧
    (save_cache s).customContent = s.customContent ∧
    (save_cache s).custom_depot_keys_file = s.custom_depot_keys_file := by
  unfold save_cache
  simp only [h, if_true, ite_true]
  split
  · exact ⟨rfl, rfl, rfl⟩
  · exact ⟨rfl, rfl, rfl⟩

/-- C8 witness: a concrete run with a custom key file whose content
differs from both the in-memory dict and the default store. -/
theorem save_cache_custom_isolated_witness :
    (save_cache ⟨some ['k'], some [(1, [170])], [(2, [187])], []⟩).defaultFile
        = [(2, [187])] ∧
    (save_cache ⟨some ['k'], some [(1, [170])], [(2, [187])], []⟩).customContent
        = some [(1, [170])] ∧
    (save_cache ⟨some ['k'], some [(1, [170])], [(2, [187])], []⟩).custom_depot_keys_file
        = some ['k'] :=
  save_cache_custom_isolated ⟨some ['k'], some [(1, [170])], [(2, [187])], []⟩
    (by decide)

theorem foldl_locate_override (path : List Char) (ms : List Manifest)
    (acc : Option FileRef) :
    ms.foldl
        (fun acc m =>
          match findFileEntry m path with
          | some fm => some (m, fm)
          | none => acc) acc =
      match lastProvider ms path with
      | some r => some r
      | none => acc := by
  induction ms generalizing acc with
  | nil => simp [lastProvider]
  | cons m t ih =>
      simp only [List.foldl_cons, lastProvider]
      rw [ih]
      cases h1 : lastProvider t path <;> cases h2 : findFileEntry m path <;>
        simp [h1, h2]

/-- C2 counterexample: with two manifests that both provide path `a`,
`_locate_file_mapping` on a fresh index does NOT return the pair from
the first manifest -- the scan loop has no `break`, so the last
manifest's entry overwrites the earlier one. -/
theorem locate_not_first_manifest :
    (locateFileMapping (mkIndex [[(['a'], 1)], [(['a'], 2)]]) ['a']).1 ≠
      firstProviderSpec [[(['a'], 1)], [(['a'], 2)]] ['a'] := by
  decide

/-- C2 (amended): lookup on a fresh index scans the manifests in the
order supplied but returns the (manifest, file-mapping) pair from the
LAST manifest containing the path (the first matching entry within that
manifest); when several manifests provide the same path, the latest one
in the supplied order wins. -/
theorem locate_returns_last_provider (ms : List Manifest) (path : List Char) :
    (locateFileMapping (mkIndex ms) path).1 = lastProvider ms path := by
  unfold locateFileMapping mkIndex
  simp only [dictGet, List.find?_nil, Option.map_none, Option.getD_none]
  rw [foldl_locate_override]
  cases h : lastProvider ms path <;> simp [h]

/-- C6 counterexample: looking up an absent path a second time performs a
full scan again (here 1 manifest scanned, not 0): the cached negative
result (`None`) is falsy under `if ref:` and indistinguishable from a
missing cache entry, so the claimed memoization of negative results does
not avoid the repeated scan. -/
theorem locate_absent_rescans :
    (locateFileMapping
        ((locateFileMapping (mkIndex [[(['b'], 1)]]) ['a']).2.1) ['a']).2.2 ≠ 0 := by
  decide

/-- C6 (amended): repeated `_locate_file_mapping` calls with the same path
return the same result, and a memoized POSITIVE result is returned
without rescanning; an absent path, however, is rescanned on every
call. -/
theorem locate_repeat_same_result (idx : ManifestFileIndex) (path : List Char) :
    (locateFileMapping ((locateFileMapping idx path).2.1) path).1 =
      (locateFileMapping idx path).1 ∧
    ((locateFileMapping idx path).1.isSome = true →
      (locateFileMapping ((locateFileMapping idx path).2.1) path).2.2 = 0) := by
  cases hc : (dictGet path idx.path_cache).getD none with
  | some r =>
      simp [locateFileMapping, hc]
  | none =>
      simp only [locateFileMapping, hc]
      cases hres : idx.manifests.foldl
          (fun acc m =>
            match findFileEntry m path with
            | some fm => some (m, fm)
            | none => acc) none with
      | some r =>
          simp [locateFileMapping, hres, dictGet_dictInsert_same]
      | none =>
          simp [locateFileMapping, hres, dictGet_dictInsert_same]

/-- C6 witness: the repeated-lookup theorem applied at a concrete index
holding one manifest that provides the looked-up path. -/
theorem locate_repeat_same_result_witness :
    (locateFileMapping
        ((locateFileMapping (mkIndex [[(['a'], 7)]]) ['a']).2.1) ['a']).1 =
      (locateFileMapping (mkIndex [[(['a'], 7)]]) ['a']).1 ∧
    ((locateFileMapping (mkIndex [[(['a'], 7)]]) ['a']).1.isSome = true →
      (locateFileMapping
          ((locateFileMapping (mkIndex [[(['a'], 7)]]) ['a']).2.1) ['a']).2.2 = 0) :=
  locate_repeat_same_result (mkIndex [[(['a'], 7)]]) ['a']

theorem runFilesLoop_spawn_flag (flag : Nat → Bool) (files : List Bool)
    (t0 : Nat) :
    ∀ t ∈ (runFilesLoop flag t0 files).1, flag t = false := by
  induction files generalizing t0 with
  | nil =>
      intro t ht
      simp [runFilesLoop] at ht
  | cons isfile rest ih =>
      intro t ht
      by_cases h : flag t0 = true
      · simp [runFilesLoop, h] at ht
      · simp only [runFilesLoop, h, if_false, Bool.false_eq_true,
          List.mem_append] at ht
        rcases ht with ht | ht
        · cases isfile with
          | true =>
              simp at ht
              subst ht
              simpa using h
          | false => simp at ht
        · exact ih (t0 + 1) t ht

theorem runManifestsLoop_spawn_flag (flag : Nat → Bool)
    (manifests : List (List Bool)) (t0 : Nat) :
    ∀ t ∈ (runManifestsLoop flag t0 manifests).1, flag t = false := by
  induction manifests generalizing t0 with
  | nil =>
      intro t ht
      simp [runManifestsLoop] at ht
  | cons m rest ih =>
      intro t ht
      by_cases h : flag t0 = true
      · simp [runManifestsLoop, h] at ht
      · simp only [runManifestsLoop, h, if_false, Bool.false_eq_true,
          List.mem_append] at ht
        rcases ht with ht | ht
        · exact runFilesLoop_spawn_flag flag m (t0 + 1) t ht
        · exact ih _ t ht

/-- C7: once the cancellation flag becomes true (it is monotone: once
set it stays set), the scheduler spawns no task at or after that time --
the count of tasks submitted after the signal is zero -- and the final
`return 0 if not should_cancel[0] else 1` yields exit status 1. -/
theorem cancellation_stops_submissions (flag : Nat → Bool)
    (manifests : List (List Bool)) (T : Nat)
    (hmono : ∀ i j, i ≤ j → flag i = true → flag j = true)
    (hT : flag T = true) :
    ((cmd_depot_download flag manifests).1.filter (fun t => T ≤ t)).length = 0 ∧
    (T ≤ (cmd_depot_download flag manifests).2.1 →
      (cmd_depot_download flag manifests).2.2 = 1) := by
  constructor
  · have hall : ∀ t ∈ (cmd_depot_download flag manifests).1, flag t = false :=
      runManifestsLoop_spawn_flag flag manifests 0
    have hfil : (cmd_depot_download flag manifests).1.filter
        (fun t => T ≤ t) = [] := by
      rw [List.filter_eq_nil_iff]
      intro t ht
      simp only [decide_eq_true_eq]
      intro hle
      have h1 := hall t ht
      have h2 := hmono T t hle hT
      rw [h1] at h2
      exact Bool.false_ne_true h2
    rw [hfil]
    rfl
  · intro hle
    have h2 := hmono T _ hle hT
    simp only [cmd_depot_download] at h2 ⊢
    rw [h2]
    rfl

/-- C7 witness: a flag that is already set at time 0; the single-file
manifest list spawns nothing and the run exits with status 1. -/
theorem cancellation_stops_submissions_witness :
    ((cmd_depot_download (fun _ => true) [[true]]).1.filter
        (fun t => 0 ≤ t)).length = 0 ∧
    (0 ≤ (cmd_depot_download (fun _ => true) [[true]]).2.1 →
      (cmd_depot_download (fun _ => true) [[true]]).2.2 = 1) :=
  cancellation_stops_submissions (fun _ => true) [[true]] 0
    (fun _ _ _ hf => hf) rfl

theorem dictGet_buildDepotKeys_aux (ms : List (List Char × Option (List Char)))
    (acc : List (List Char × List Char)) (d : List Char) :
    dictGet d
        (ms.foldl
          (fun dict m =>
            match m.2 with
            | some k => dictInsert m.1 k dict
            | none => dict) acc) =
      match lastCarriedKey ms d with
      | some k => some k
      | none => dictGet d acc := by
  induction ms generalizing acc with
  | nil => simp [lastCarriedKey]
  | cons m t ih =>
      obtain ⟨i, ok⟩ := m
      simp only [List.foldl_cons, lastCarriedKey]
      rw [ih]
      cases h1 : lastCarriedKey t d with
      | some k => simp
      | none =>
          cases ok with
          | none =>
              by_cases h2 : i = d <;> simp [h2]
          | some k =>
              by_cases h2 : i = d
              · subst h2
                simp [dictGet_dictInsert_same]
              · simp [h2, dictGet_dictInsert_other d i k acc h2]

/-- C10: in the Format-A parser an `addappid` match without a hex key
group leaves the depot→key dict untouched (lines 236-240), so for every
depot id the parsed mapping holds the key of the last `addappid`
directive that actually carried a key, or no entry when none did. -/
theorem addappid_without_key_keeps_mapping (content : List Char) (d : List Char) :
    dictGet d (parseFormatA content).1 =
      lastCarriedKey (findAddappid content) d := by
  unfold parseFormatA buildDepotKeys
  rw [dictGet_buildDepotKeys_aux]
  cases h : lastCarriedKey (findAddappid content) d <;> simp [dictGet]

theorem download_chunks_all_match (ha : List Nat → Nat) (fetch : Nat → List Nat)
    (chunks : List ChunkData) (file : List Nat) :
    ∀ (pos f p : Nat),
      file.length = pos + sumLens chunks →
      contiguousFrom pos chunks = true →
      (∀ c ∈ chunks, ha (readAt file c.offset c.cb_original) = c.sha) →
      chunks.foldl (processChunk ha fetch true) ⟨file, pos, f, p⟩ =
        ⟨file, pos + sumLens chunks, f, p + sumLens chunks⟩ := by
  induction chunks with
  | nil =>
      intro pos f p _ _ _
      simp [sumLens]
  | cons c t ih =>
      intro pos f p hlen hcont hmatch
      have hsum : sumLens (c :: t) = c.cb_original + sumLens t := by
        simp [sumLens]
      obtain ⟨hoff, hcont'⟩ : c.offset = pos ∧ contiguousFrom (pos + c.cb_original) t = true := by
        simpa [contiguousFrom] using hcont
      have hclen : (readAt file pos c.cb_original).length = c.cb_original := by
        simp only [readAt, List.length_take, List.length_drop]
        omega
      have hmatchc : ha (readAt file pos c.cb_original) = c.sha := by
        rw [← hoff]
        exact hmatch c (List.mem_cons_self c t)
      have hstep : processChunk ha fetch true ⟨file, pos, f, p⟩ c =
          ⟨file, pos + c.cb_original, f, p + c.cb_original⟩ := by
        simp only [processChunk, if_true]
        rw [if_pos hmatchc]
        simp [hclen]
      rw [List.foldl_cons, hstep]
      rw [ih (pos + c.cb_original) f (p + c.cb_original) (by omega) hcont'
        (fun c' hc' => hmatch c' (List.mem_cons_of_mem c hc'))]
      simp only [DLState.mk.injEq, true_and, and_true]
      omega

/-- C3: running `download_to` with `verify=true` over an existing target
file whose bytes already match every chunk's content hash performs zero
chunk fetches, leaves the file bytes unchanged, and still counts every
chunk's bytes toward progress -- a second consecutive run over a
complete, correct file is a zero-network-fetch operation. -/
theorem verify_matching_file_fetches_nothing (ha : List Nat → Nat)
    (fetch : Nat → List Nat) (size : Nat) (file : List Nat)
    (chunks : List ChunkData)
    (hsize : file.length = size)
    (hsum : sumLens chunks = size)
    (hcont : contiguousFrom 0 chunks = true)
    (hmatch : ∀ c ∈ chunks, ha (readAt file c.offset c.cb_original) = c.sha) :
    (download_to ha fetch true true size file chunks).fetches = 0 ∧
    (download_to ha fetch true true size file chunks).file = file ∧
    (download_to ha fetch true true size file chunks).progress = size := by
  have halloc : allocTo file size = file := by
    simp [allocTo, hsize]
  unfold download_to
  simp only [Bool.and_self, if_true, ite_true, halloc]
  rw [download_chunks_all_match ha fetch chunks file 0 0 0 (by omega) hcont hmatch]
  simp [hsum]

/-- C3 witness: a 3-byte file split into two contiguous chunks whose
hashes (under the explicit hash function) match the on-disk bytes. -/
theorem verify_matching_file_fetches_nothing_witness :
    (download_to (fun l => l.length + l.sum) (fun _ => []) true true 3
        [10, 20, 30] [⟨32, 0, 2⟩, ⟨31, 2, 1⟩]).fetches = 0 ∧
    (download_to (fun l => l.length + l.sum) (fun _ => []) true true 3
        [10, 20, 30] [⟨32, 0, 2⟩, ⟨31, 2, 1⟩]).file = [10, 20, 30] ∧
    (download_to (fun l => l.length + l.sum) (fun _ => []) true true 3
        [10, 20, 30] [⟨32, 0, 2⟩, ⟨31, 2, 1⟩]).progress = 3 :=
  verify_matching_file_fetches_nothing (fun l => l.length + l.sum) (fun _ => [])
    3 [10, 20, 30] [⟨32, 0, 2⟩, ⟨31, 2, 1⟩]
    (by decide) (by decide) (by decide) (by decide)

theorem xorBytes_involutive (k : Nat) (data : List Nat) :
    xorBytes k (xorBytes k data) = data := by
  induction data with
  | nil => rfl
  | cons b t ih =>
      simp only [xorBytes, List.map_cons, List.map_map] at *
      rw [List.cons_eq_cons]
      refine ⟨?_, ih⟩
      rw [Nat.xor_assoc, Nat.xor_self, Nat.xor_zero]

/-- C4: decoding a Format-B container correctly built from a Format-A
text recovers exactly the depot-key assignments and (depot-id,
manifest-id) pairs of parsing that text directly.  `comp`/`decomp` and
`enc`/`dec` model the external zlib and UTF-8 codecs, assumed only to
round-trip on this payload. -/
theorem formatB_roundtrip (comp decomp : List Nat → List Nat)
    (enc : List Char → List Nat) (dec : List Nat → List Char)
    (xorkey_raw verify : Nat) (pad : List Nat) (text : List Char)
    (hx : xorkey_raw < 4294967296)
    (hs : (comp (pad ++ enc text)).length < 4294967296)
    (hpad : pad.length = 512)
    (hzlib : decomp (comp (pad ++ enc text)) = pad ++ enc text)
    (hutf : dec (enc text) = text) :
    decodeFormatB decomp dec
        (buildFormatB comp enc xorkey_raw verify pad text) =
      some (parseFormatA text) := by
  unfold buildFormatB decodeFormatB
  simp only [leBytes4, List.cons_append, List.nil_append]
  have hx' : u32le (xorkey_raw % 256) (xorkey_raw / 256 % 256)
      (xorkey_raw / 65536 % 256) (xorkey_raw / 16777216 % 256) = xorkey_raw := by
    unfold u32le
    omega
  have hs' : u32le ((comp (pad ++ enc text)).length % 256)
      ((comp (pad ++ enc text)).length / 256 % 256)
      ((comp (pad ++ enc text)).length / 65536 % 256)
      ((comp (pad ++ enc text)).length / 16777216 % 256) =
        (comp (pad ++ enc text)).length := by
    unfold u32le
    omega
  rw [hx', hs']
  have htake : (xorBytes (deriveXorKey xorkey_raw) (comp (pad ++ enc text))).take
      (comp (pad ++ enc text)).length =
        xorBytes (deriveXorKey xorkey_raw) (comp (pad ++ enc text)) := by
    have hlm : (comp (pad ++ enc text)).length =
        (xorBytes (deriveXorKey xorkey_raw) (comp (pad ++ enc text))).length := by
      simp [xorBytes]
    rw [hlm, List.take_length]
  rw [htake, xorBytes_involutive, hzlib, ← hpad, List.drop_left, hutf]

set_option maxRecDepth 8192 in
/-- C4 witness: the identity as the compressor pair, character-code
maps as the UTF-8 codec pair, a 512-byte zero pad, and a one-directive
Format-A text. -/
theorem formatB_roundtrip_witness :
    decodeFormatB (fun l => l) (fun l => l.map Char.ofNat)
        (buildFormatB (fun l => l) (fun s => s.map Char.toNat)
          0x12345678 7 (List.replicate 512 0) "addappid(1)".toList) =
      some (parseFormatA "addappid(1)".toList) :=
  formatB_roundtrip (fun l => l) (fun l => l) (fun s => s.map Char.toNat)
    (fun l => l.map Char.ofNat) 0x12345678 7 (List.replicate 512 0)
    "addappid(1)".toList (by decide) (by decide) (by decide) rfl (by decide)
